import Mathlib

set_option maxHeartbeats 1000000

/-!
Verification development for the HR_amas payroll/attendance core.

Shallow embedding of the computational core of the repository:
effective-dated schedule and salary-history timelines
(`hr_attendance_history`, `hr_salary_history`), the salary adjustment log
(`hr_salary_log`), raw attendance punches (`hr_attendance`), the monthly
payroll queries (`fetch_month` in pages/employee_salary.py and
`fetch_month_summary` in pages/hr_salary_log.py), the close+insert write
operations, the finalize-to-ledger operation (`hr_salary_pushed`), and the
per-punch derived values (worked seconds, expected shift hours, lateness).

Dates are modelled as integer day numbers, times of day and timestamps as
integer seconds, and monetary amounts and hour totals as rationals.
SQL NULL on `effective_to` / `clock_out` is modelled with `Option`.
-/

namespace HRAmas

/-! ### Effective-dated windows

A window is a pair `(effective_from, effective_to)` with `none` meaning an
open-ended (currently in force) record, matching a date `d` when
`effective_from <= d` and (`effective_to` is null or `d <= effective_to`),
exactly the SQL pattern used throughout the repository. -/

abbrev Window := ℤ × Option ℤ

/-- `winContains w d`: the SQL condition
`effective_from <= d AND COALESCE(effective_to, d) >= d`. -/
def winContains (w : Window) (d : ℤ) : Bool :=
  decide (w.1 ≤ d) &&
    (match w.2 with
     | none => true
     | some t => decide (d ≤ t))

/-- Two windows overlap when some day is contained in both; for intervals
this is the condition that every lower bound is at most every upper bound. -/
def winOverlap (w1 w2 : Window) : Bool :=
  (match w1.2 with
   | none => true
   | some t => decide (w1.1 ≤ t) && decide (w2.1 ≤ t)) &&
  (match w2.2 with
   | none => true
   | some t => decide (w1.1 ≤ t) && decide (w2.1 ≤ t))

/-- No two windows in the list overlap (pairwise). -/
def noOverlap : List Window → Bool
  | [] => true
  | w :: ws => ws.all (fun v => ! winOverlap w v) && noOverlap ws

/-- Number of open-ended (`effective_to = null`) windows. -/
def openCount (ws : List Window) : ℕ :=
  ws.countP (fun w => match w.2 with | none => true | some _ => false)

/-- The timeline invariant of the spec: pairwise non-overlap and at most one
open record. -/
def timelineOK (ws : List Window) : Bool :=
  noOverlap ws && decide (openCount ws ≤ 1)

/-- Effect on one window of the close step of a close+insert operation:
an open window gets `effective_to := close_from - 1`; closed windows are
untouched (`UPDATE ... SET effective_to = :to WHERE effective_to IS NULL`). -/
def closeOne (cf : ℤ) (w : Window) : Window :=
  match w.2 with
  | none => (w.1, some (cf - 1))
  | some _ => w

/-- Window-level picture of a close+insert operation: close every open
window at `cf - 1`, then append a new open window starting at `eff`. -/
def closeInsertWins (cf eff : ℤ) (ws : List Window) : List Window :=
  ws.map (closeOne cf) ++ [(eff, none)]

/-! ### Table rows (data model) -/

/-- A row of `hr_employee` (only the fields the core reads).
`basicsalary` is the static column read by pages/hr_salary_log.py. -/
structure Employee where
  employeeid : ℕ
  fullname : String
  basicsalary : ℚ
  deriving DecidableEq

/-- A row of `hr_salary_history`. -/
structure SalaryHistoryRow where
  employeeid : ℕ
  salary : ℚ
  effective_from : ℤ
  effective_to : Option ℤ
  reason : String
  deriving DecidableEq

/-- A row of `hr_salary_log` (the adjustment log). -/
structure SalaryLogRow where
  employeeid : ℕ
  txn_date : ℤ
  amount : ℚ
  txn_type : String
  reason : String
  deriving DecidableEq

/-- A row of `hr_attendance` (a punch); `clock_in`/`clock_out` are
timestamps in seconds, `clock_out` null while still clocked in. -/
structure AttendanceRow where
  employeeid : ℕ
  punch_date : ℤ
  clock_in : ℤ
  clock_out : Option ℤ
  deriving DecidableEq

/-- A row of `hr_attendance_history` (an effective-dated shift schedule).
`clock_in`/`clock_out` are times of day in seconds. -/
structure SchedRow where
  att_id : ℕ
  employeeid : ℕ
  work_days_per_week : ℕ
  off_day : ℕ
  clock_in : ℤ
  clock_out : ℤ
  effective_from : ℤ
  effective_to : Option ℤ
  reason : String
  deriving DecidableEq

/-- A row of `hr_salary_pushed` (the finalized payroll ledger). -/
structure PushedRow where
  employeeid : ℕ
  month : ℤ
  base : ℚ
  bonus : ℚ
  extra : ℚ
  fine : ℚ
  net : ℚ
  note : String
  created_by : String
  deriving DecidableEq

/-- The relational state the core operates on. -/
structure DB where
  employees : List Employee
  salary_log : List SalaryLogRow
  salary_history : List SalaryHistoryRow
  attendance : List AttendanceRow
  attendance_history : List SchedRow
  pushed : List PushedRow
  deriving DecidableEq

/-! ### Salary-history resolution (pages/employee_salary.py) -/

/-- The SQL window test for a salary-history row:
`employeeid = :eid AND effective_from <= :d AND
(effective_to IS NULL OR effective_to >= :d)`
(equivalently `COALESCE(effective_to, DATE '9999-12-31') >= :d`). -/
def matchesAt (d : ℤ) (eid : ℕ) (r : SalaryHistoryRow) : Bool :=
  decide (r.employeeid = eid) && decide (r.effective_from ≤ d) &&
    (match r.effective_to with
     | none => true
     | some t => decide (d ≤ t))

/-- `ORDER BY effective_from DESC LIMIT 1` / `DISTINCT ON (employeeid)`
with that ordering: the row with the greatest `effective_from`. -/
def pickLatest : List SalaryHistoryRow → Option SalaryHistoryRow
  | [] => none
  | r :: rs =>
    match pickLatest rs with
    | none => some r
    | some b => if b.effective_from > r.effective_from then some b else some r

/-- The salary in force on day `d`: the `base` CTE of `fetch_month` and the
`cur_sql` lookup of the raise form; `COALESCE(base.salary, 0)`. -/
def resolveSalaryAt (d : ℤ) (eid : ℕ) (hist : List SalaryHistoryRow) : ℚ :=
  match pickLatest (hist.filter (fun r => matchesAt d eid r)) with
  | none => 0
  | some r => r.salary

/-! ### Adjustment and attendance aggregation (`fetch_month` CTEs) -/

/-- `SUM(CASE WHEN txn_type = typ THEN amount END)` over
`txn_date BETWEEN :s AND :e`, with the outer `COALESCE(..., 0)`. -/
def adjSum (typ : String) (s e : ℤ) (eid : ℕ) (log : List SalaryLogRow) : ℚ :=
  ((log.filter (fun l => decide (l.employeeid = eid) && decide (s ≤ l.txn_date) &&
      decide (l.txn_date ≤ e) && decide (l.txn_type = typ))).map (fun l => l.amount)).sum

/-- Insertion step of a stable sort by transaction date. -/
def insertByDate (x : SalaryLogRow) : List SalaryLogRow → List SalaryLogRow
  | [] => [x]
  | y :: ys => if x.txn_date < y.txn_date then x :: y :: ys else y :: insertByDate x ys

/-- Sort adjustment rows by `txn_date` (for `ORDER BY txn_date`). -/
def sortByDate (l : List SalaryLogRow) : List SalaryLogRow :=
  l.foldr insertByDate []

/-- `STRING_AGG(reason, '; ' ORDER BY txn_date)` over the month, with the
outer `COALESCE(..., '')`. -/
def reasonsAgg (s e : ℤ) (eid : ℕ) (log : List SalaryLogRow) : String :=
  String.intercalate "; "
    ((sortByDate (log.filter (fun l => decide (l.employeeid = eid) &&
        decide (s ≤ l.txn_date) && decide (l.txn_date ≤ e)))).map (fun l => l.reason))

/-- The `att` CTE of `fetch_month`:
`SUM(EXTRACT(EPOCH FROM (COALESCE(clock_out, clock_in) - clock_in))) / 3600`
over punches with `punch_date BETWEEN :s AND :e`.  Note the null stand-in
here is `clock_in`, so an open punch contributes zero. -/
def workedOf (s e : ℤ) (eid : ℕ) (att : List AttendanceRow) : ℚ :=
  (((att.filter (fun a => decide (a.employeeid = eid) && decide (s ≤ a.punch_date) &&
      decide (a.punch_date ≤ e))).map
    (fun a => ((a.clock_out.getD a.clock_in : ℤ) : ℚ) - (a.clock_in : ℚ))).sum) / 3600

/-! ### Monthly payroll summaries -/

/-- One output row of `fetch_month` (pages/employee_salary.py), including
the `net` column added in pandas after the query. -/
structure MonthRow where
  employeeid : ℕ
  fullname : String
  base : ℚ
  bonus : ℚ
  extra : ℚ
  fine : ℚ
  worked : ℚ
  required : ℚ
  delta : ℚ
  reasons : String
  net : ℚ
  deriving DecidableEq

/-- The row `fetch_month` produces for one employee. -/
def monthRowOf (s e : ℤ) (req : ℚ) (db : DB) (emp : Employee) : MonthRow :=
  let base := resolveSalaryAt s emp.employeeid db.salary_history
  let bonus := adjSum "bonus" s e emp.employeeid db.salary_log
  let extra := adjSum "extra" s e emp.employeeid db.salary_log
  let fineAmt := adjSum "fine" s e emp.employeeid db.salary_log
  let worked := workedOf s e emp.employeeid db.attendance
  { employeeid := emp.employeeid
    fullname := emp.fullname
    base := base
    bonus := bonus
    extra := extra
    fine := fineAmt
    worked := worked
    required := req
    delta := worked - req
    reasons := reasonsAgg s e emp.employeeid db.salary_log
    net := base + bonus + extra - fineAmt }

/-- `fetch_month(start_d, end_d, req_h)` of pages/employee_salary.py:
one row per `hr_employee` row (LEFT JOINs degrade to zeros), plus the
pandas column `net = base + bonus + extra - fine`. -/
def fetch_month (s e : ℤ) (req : ℚ) (db : DB) : List MonthRow :=
  db.employees.map (fun emp => monthRowOf s e req db emp)

/-- One output row of `fetch_month_summary` (pages/hr_salary_log.py). -/
structure SummaryRow where
  employeeid : ℕ
  fullname : String
  base : ℚ
  bonus : ℚ
  extra : ℚ
  fine : ℚ
  net : ℚ
  deriving DecidableEq

/-- `fetch_month_summary(start, end)` of pages/hr_salary_log.py: the base
column is the static `e.basicsalary` of `hr_employee`, NOT resolved from
`hr_salary_history`; bonus/extra/fine are the month's adjustment sums, and
pandas adds `net = base + bonus + extra - fine`. -/
def fetch_month_summary (s e : ℤ) (db : DB) : List SummaryRow :=
  db.employees.map (fun emp =>
    let base := emp.basicsalary
    let bonus := adjSum "bonus" s e emp.employeeid db.salary_log
    let extra := adjSum "extra" s e emp.employeeid db.salary_log
    let fineAmt := adjSum "fine" s e emp.employeeid db.salary_log
    { employeeid := emp.employeeid
      fullname := emp.fullname
      base := base
      bonus := bonus
      extra := extra
      fine := fineAmt
      net := base + bonus + extra - fineAmt })

/-! ### Close+insert and edit operations -/

/-- `close_current_and_insert_raise` (pages/employee_salary.py): inside one
transaction, `UPDATE hr_salary_history SET effective_to = eff_from - 1 day
WHERE employeeid = eid AND effective_to IS NULL`, then insert a new row
`(eid, new_salary, eff_from, reason)` with `effective_to` defaulting to
null.  The transaction is modelled as a single pure step. -/
def close_current_and_insert_raise (eid : ℕ) (new_salary : ℚ) (eff_from : ℤ)
    (rsn : String) (tbl : List SalaryHistoryRow) : List SalaryHistoryRow :=
  tbl.map (fun r => if r.employeeid = eid ∧ r.effective_to = none then
      { r with effective_to := some (eff_from - 1) } else r)
  ++ [{ employeeid := eid, salary := new_salary, effective_from := eff_from,
        effective_to := none, reason := rsn }]

/-- The payload dict passed to `close_current_and_add`
(pages/attendance.py).  Note the function reads the close date from
`payload["effective_from"]` but inserts `payload["eff"]` as the new row's
`effective_from`; both keys are modelled. -/
structure SchedPayload where
  effective_from : ℤ
  wd : ℕ
  off : ℕ
  cin : ℤ
  cout : ℤ
  eff : ℤ
  rsn : String
  deriving DecidableEq

/-- `close_current_and_add` (pages/attendance.py): close every open
schedule row of the employee at `payload["effective_from"] - 1 day`, then
insert a new row with `effective_from = payload["eff"]` and null
`effective_to`.  `newId` stands for the serial `att_id` the store assigns. -/
def close_current_and_add (eid : ℕ) (pl : SchedPayload) (newId : ℕ)
    (tbl : List SchedRow) : List SchedRow :=
  tbl.map (fun r => if r.employeeid = eid ∧ r.effective_to = none then
      { r with effective_to := some (pl.effective_from - 1) } else r)
  ++ [{ att_id := newId, employeeid := eid, work_days_per_week := pl.wd,
        off_day := pl.off, clock_in := pl.cin, clock_out := pl.cout,
        effective_from := pl.eff, effective_to := none, reason := pl.rsn }]

/-- The column set the schedule edit modal passes to
`update_schedule_row` (pages/attendance.py, Tab 3): all editable columns,
`effective_to` possibly null. -/
structure SchedCols where
  work_days_per_week : ℕ
  off_day : ℕ
  clock_in : ℤ
  clock_out : ℤ
  effective_from : ℤ
  effective_to : Option ℤ
  reason : String
  deriving DecidableEq

/-- `update_schedule_row(att_id, cols)`: a single-row
`UPDATE hr_attendance_history SET ... WHERE att_id = :att_id`. -/
def update_schedule_row (att_id : ℕ) (cols : SchedCols) (tbl : List SchedRow) :
    List SchedRow :=
  tbl.map (fun r => if r.att_id = att_id then
      { att_id := r.att_id, employeeid := r.employeeid,
        work_days_per_week := cols.work_days_per_week, off_day := cols.off_day,
        clock_in := cols.clock_in, clock_out := cols.clock_out,
        effective_from := cols.effective_from, effective_to := cols.effective_to,
        reason := cols.reason } else r)

/-! ### Adjustment posting -/

/-- `add_adjustment` (pages/hr_salary_log.py) / `add_txn`
(pages/employee_salary.py): append one row to `hr_salary_log`. -/
def add_adjustment (eid : ℕ) (d : ℤ) (amount : ℚ) (typ rsn : String)
    (db : DB) : DB :=
  { db with salary_log := db.salary_log ++
      [{ employeeid := eid, txn_date := d, amount := amount,
         txn_type := typ, reason := rsn }] }

/-- Outcome of a form submit: the resulting store state and the error
message surfaced to the operator, if any. -/
structure SubmitOutcome where
  db : DB
  err : Option String
  deriving DecidableEq

/-- The add-adjustment submit handler of pages/hr_salary_log.py:
`if amount <= 0: st.error("Amount must be positive.") else add_adjustment`. -/
def add_adjustment_submit (eid : ℕ) (d : ℤ) (amount : ℚ) (typ rsn : String)
    (db : DB) : SubmitOutcome :=
  if amount ≤ 0 then { db := db, err := some "Amount must be positive." }
  else { db := add_adjustment eid d amount typ rsn db, err := none }

/-- The inline adjustment form of pages/employee_salary.py (Tab 1):
`if sv.form_submit_button("Save") and amt > 0: add_txn(...)`.  There is
no error branch in the source: a non-positive amount writes nothing and
surfaces no message, so the outcome's error channel is always `none`. -/
def inline_adjust_outcome (eid : ℕ) (d : ℤ) (amt : ℚ) (typ rsn : String)
    (db : DB) : SubmitOutcome :=
  { db := if 0 < amt then add_adjustment eid d amt typ rsn db else db,
    err := none }

/-! ### The raise/cut submit handler (pages/employee_salary.py, Tab 2) -/

/-- The `cur_sql` lookup: the salary of the row in force on `today`
(`ORDER BY effective_from DESC LIMIT 1`), or `0.0` when no row matches. -/
def current_salary (today : ℤ) (eid : ℕ) (hist : List SalaryHistoryRow) : ℚ :=
  match pickLatest (hist.filter (fun r => matchesAt today eid r)) with
  | none => 0
  | some r => r.salary

/-- The raise-form submit handler: reject `new_sal <= 0`, warn and skip
when `new_sal == cur_sal`, otherwise run `close_current_and_insert_raise`
with the first-of-month date `eff_first`. -/
def tab_raise_submit (today : ℤ) (eid : ℕ) (new_sal : ℚ) (eff_first : ℤ)
    (rsn : String) (db : DB) : DB :=
  if new_sal ≤ 0 then db
  else if new_sal = current_salary today eid db.salary_history then db
  else { db with salary_history :=
          close_current_and_insert_raise eid new_sal eff_first rsn db.salary_history }

/-! ### Finalize / push to finance (pages/employee_salary.py, Tab 3) -/

/-- The lock check: `SELECT COUNT(*) FROM hr_salary_pushed WHERE month = :m`
compared with `> 0`. -/
def already_pushed (m : ℤ) (pushed : List PushedRow) : Bool :=
  decide (0 < pushed.countP (fun p => decide (p.month = m)))

/-- The `base_sql` raise/cut reason lookup: among the salary-history rows
whose window contains the month's first day, the loop's dict assignment
keeps the last row for each employee; absent employees get `""`. -/
def base_reason_at (m : ℤ) (eid : ℕ) (hist : List SalaryHistoryRow) : String :=
  match (hist.filter (fun r => decide (r.employeeid = eid) &&
      decide (r.effective_from ≤ m) &&
      (match r.effective_to with
       | none => true
       | some t => decide (m ≤ t)))).getLast? with
  | none => ""
  | some r => r.reason

/-- The composed note column: `"Raise/Cut: ..."` and `"Adj.: ..."` parts
joined with `" | "`, empty parts skipped. -/
def note_for (m : ℤ) (eid : ℕ) (reasons : String)
    (hist : List SalaryHistoryRow) : String :=
  let rn := base_reason_at m eid hist
  String.intercalate " | "
    ((if rn ≠ "" then ["Raise/Cut: " ++ rn] else []) ++
     (if reasons ≠ "" then ["Adj.: " ++ reasons] else []))

/-- The ledger row inserted for one `fetch_month` row on finalize. -/
def push_row (m : ℤ) (actor : String) (hist : List SalaryHistoryRow)
    (r : MonthRow) : PushedRow :=
  { employeeid := r.employeeid, month := m, base := r.base, bonus := r.bonus,
    extra := r.extra, fine := r.fine, net := r.net,
    note := note_for m r.employeeid r.reasons hist, created_by := actor }

/-- The batch of ledger rows the finalize loop inserts: one per
`fetch_month` row. -/
def pushRows (m e : ℤ) (req : ℚ) (actor : String) (db : DB) : List PushedRow :=
  (fetch_month m e req db).map (fun r => push_row m actor db.salary_history r)

/-- The push-to-finance tab: if any `hr_salary_pushed` row exists for the
month, view-only (no write); otherwise insert one snapshot row per
`fetch_month` row inside a single transaction.  `m` is the month's first
day (also the query start date in the source), `e` its last day. -/
def tab_push (m e : ℤ) (req : ℚ) (actor : String) (db : DB) : DB :=
  if already_pushed m db.pushed then db
  else { db with pushed := db.pushed ++ pushRows m e req actor db }

/-! ### Per-punch derived values (pages/attendance.py) -/

/-- The `secs` column of `SQL_DAY` and `SQL_RANGE`:
`EXTRACT(EPOCH FROM (COALESCE(a.clock_out, NOW()) - a.clock_in))`. -/
def secs_day (cin : ℤ) (cout : Option ℤ) (now : ℤ) : ℤ :=
  cout.getD now - cin

/-- `SQL_SHIFT_HRS`: expected shift hours from the resolved schedule's
times of day; adds 24h when the shift crosses midnight. -/
def shift_hrs (tin tout : ℤ) : ℚ :=
  if tout ≥ tin then ((tout : ℚ) - (tin : ℚ)) / 3600
  else ((tout : ℚ) + 86400 - (tin : ℚ)) / 3600

/-- The `late` column computed in `fetch_day` and `fetch_range` (both use
the same lambda): `False` when no schedule resolved, otherwise
`clock_in.time() > (combine(today, expected_in) + 5 minutes).time()`.
Taking `.time()` of the shifted datetime is addition of 300 seconds
modulo 86400; both times of day are seconds since midnight. -/
def late_flag (expected_in : Option ℤ) (actual_in_tod : ℤ) : Bool :=
  match expected_in with
  | none => false
  | some t => decide (actual_in_tod > (t + 300) % 86400)

/-! ### Sequences of close+insert operations (for the timeline invariant) -/

/-- A close+insert write: a salary raise/cut or a schedule supersede. -/
inductive HistOp where
  | raiseOp (eid : ℕ) (sal : ℚ) (eff : ℤ) (rsn : String)
  | addOp (eid : ℕ) (pl : SchedPayload) (newId : ℕ)
  deriving DecidableEq

/-- Apply one close+insert operation to the store. -/
def applyHistOp (op : HistOp) (db : DB) : DB :=
  match op with
  | .raiseOp eid sal eff rsn =>
    { db with salary_history := close_current_and_insert_raise eid sal eff rsn db.salary_history }
  | .addOp eid pl newId =>
    { db with attendance_history := close_current_and_add eid pl newId db.attendance_history }

/-- Apply a sequence of close+insert operations, oldest first. -/
def applyHistOps (ops : List HistOp) (db : DB) : DB :=
  ops.foldl (fun d o => applyHistOp o d) db

/-- `effective_to` is null or strictly before `eff`. -/
def endsBefore (eff : ℤ) : Option ℤ → Bool
  | none => true
  | some t => decide (t < eff)

/-- An operation is fresh for the current state when its new
`effective_from` is strictly later than the `effective_to` of every
already-closed record of that employee (and, for a schedule supersede,
the payload's close date does not exceed its insert date). -/
def opFresh (op : HistOp) (db : DB) : Bool :=
  match op with
  | .raiseOp eid _ eff _ =>
    db.salary_history.all (fun r => !(decide (r.employeeid = eid)) || endsBefore eff r.effective_to)
  | .addOp eid pl _ =>
    decide (pl.effective_from ≤ pl.eff) &&
      db.attendance_history.all (fun r => !(decide (r.employeeid = eid)) || endsBefore pl.eff r.effective_to)

/-- Every operation of the sequence is fresh in the state it is applied to. -/
def freshSeq : List HistOp → DB → Bool
  | [], _ => true
  | op :: ops, db => opFresh op db && freshSeq ops (applyHistOp op db)

/-- The effective-dated windows of one employee's salary history. -/
def salWins (eid : ℕ) (tbl : List SalaryHistoryRow) : List Window :=
  (tbl.filter (fun r => decide (r.employeeid = eid))).map
    (fun r => (r.effective_from, r.effective_to))

/-- The effective-dated windows of one employee's schedule history. -/
def schedWins (eid : ℕ) (tbl : List SchedRow) : List Window :=
  (tbl.filter (fun r => decide (r.employeeid = eid))).map
    (fun r => (r.effective_from, r.effective_to))

/-- The spec invariant for one employee: both the schedule and the salary
timeline have no overlapping windows and at most one open record. -/
def empTimelinesOK (eid : ℕ) (db : DB) : Bool :=
  timelineOK (salWins eid db.salary_history) &&
    timelineOK (schedWins eid db.attendance_history)

/-! ### Concrete test fixtures -/

/-- The empty store. -/
def emptyDB : DB := ⟨[], [], [], [], [], []⟩

/-- Schedule payload: hire schedule effective from day 0. -/
def plA : SchedPayload := ⟨0, 5, 0, 28800, 61200, 0, "hire"⟩

/-- Schedule payload: superseding schedule effective from day 100. -/
def plB : SchedPayload := ⟨100, 5, 0, 32400, 64800, 100, "change"⟩

/-- Schedule payload: schedule effective from day 40 (sequence witness). -/
def plC : SchedPayload := ⟨40, 6, 1, 28800, 61200, 40, "sched"⟩

/-- Schedule timeline after the hire supersede. -/
def tlA : List SchedRow := close_current_and_add 1 plA 1 []

/-- Schedule timeline after a second, later supersede. -/
def tlB : List SchedRow := close_current_and_add 1 plB 2 tlA

/-- An edit the modal permits: row 1 gets `effective_to := none` again. -/
def colsX : SchedCols := ⟨5, 0, 28800, 61200, 0, none, "edit"⟩

/-- `tlB` after the single-row edit reopening row 1. -/
def tlC : List SchedRow := update_schedule_row 1 colsX tlB

/-- Salary timeline after the hire insert. -/
def sA : List SalaryHistoryRow := close_current_and_insert_raise 1 100 0 "init" []

/-- `sA` after a raise effective day 200. -/
def sB : List SalaryHistoryRow := close_current_and_insert_raise 1 120 200 "raise" sA

/-- `sB` after a back-dated raise effective day 50. -/
def sC : List SalaryHistoryRow := close_current_and_insert_raise 1 110 50 "backdated" sB

/-- A fresh operation sequence from the empty store. -/
def ops0 : List HistOp :=
  [.raiseOp 1 100 0 "init", .raiseOp 1 120 31 "raise", .addOp 1 plC 1]

/-- One employee, one open salary-history row at 100 since day 0. -/
def db2w : DB := ⟨[⟨1, "A", 100⟩], [], [⟨1, 100, 0, none, "hire"⟩], [], [], []⟩

/-- A store whose month 0 is already pushed to finance. -/
def db3L : DB := ⟨[⟨1, "A", 100⟩], [], [⟨1, 100, 0, none, "hire"⟩], [], [],
  [⟨1, 0, 100, 0, 0, 0, 100, "", "hr"⟩]⟩

/-- A store with no pushed rows yet. -/
def db3o : DB := ⟨[⟨1, "A", 100⟩], [], [⟨1, 100, 0, none, "hire"⟩], [], [], []⟩

/-- One employee with static `basicsalary` 100 but a salary-history record
at 200 in force from day 0. -/
def db4c : DB := ⟨[⟨1, "A", 100⟩], [], [⟨1, 200, 0, none, "hire"⟩], [], [], []⟩

/-- The `fetch_month 10 40 0` row of `db4c`'s single employee. -/
def row4 : MonthRow := monthRowOf 10 40 0 db4c ⟨1, "A", 100⟩

/-- A store with one bonus adjustment of 50 on day 15. -/
def db5 : DB := ⟨[⟨1, "A", 100⟩], [⟨1, 15, 50, "bonus", "Eid"⟩],
  [⟨1, 200, 0, none, "hire"⟩], [], [], []⟩

/-- The `fetch_month 10 40 0` row of `db5`'s single employee. -/
def row5 : MonthRow := monthRowOf 10 40 0 db5 ⟨1, "A", 100⟩

/-! ## Theorems -/

/-- C7 counterexample: with expected clock-in equal to expected clock-out
(08:00 both), the computed expected shift length is 0, not a positive
duration as the claim states. -/
theorem c7_counterexample :
    shift_hrs 28800 28800 = 0 ∧ ¬ (0 < shift_hrs 28800 28800) := by
  norm_num [shift_hrs]

/-- C7 (amended): for times of day `T_in`, `T_out`, the expected
shift-hours are `(T_out - T_in)/3600` when `T_out >= T_in` and
`(T_out + 86400 - T_in)/3600` otherwise; the result is nonnegative, and
strictly positive whenever `T_out` differs from `T_in`. -/
theorem c7_shift_hours_amended (tin tout : ℤ) (_h1 : 0 ≤ tin) (h2 : tin < 86400)
    (h3 : 0 ≤ tout) (_h4 : tout < 86400) :
    (tin ≤ tout → shift_hrs tin tout = ((tout : ℚ) - (tin : ℚ)) / 3600)
  ∧ (tout < tin → shift_hrs tin tout = ((tout : ℚ) + 86400 - (tin : ℚ)) / 3600)
  ∧ 0 ≤ shift_hrs tin tout
  ∧ (tout ≠ tin → 0 < shift_hrs tin tout) := by
  unfold shift_hrs
  by_cases h : tout ≥ tin
  · rw [if_pos h]
    refine ⟨fun _ => rfl, fun hlt => absurd h (not_le.mpr hlt), ?_, ?_⟩
    · apply div_nonneg _ (by norm_num)
      have hc : (tin : ℚ) ≤ (tout : ℚ) := by exact_mod_cast h
      linarith
    · intro hne
      apply div_pos _ (by norm_num)
      have hlt : tin < tout := lt_of_le_of_ne h (fun he => hne he.symm)
      have hc : (tin : ℚ) < (tout : ℚ) := by exact_mod_cast hlt
      linarith
  · rw [if_neg h]
    push_neg at h
    refine ⟨fun hle => absurd hle (not_le.mpr h), fun _ => rfl, ?_, ?_⟩
    · apply div_nonneg _ (by norm_num)
      have ha : (0 : ℚ) ≤ (tout : ℚ) := by exact_mod_cast h3
      have hb : (tin : ℚ) < 86400 := by exact_mod_cast h2
      linarith
    · intro _
      apply div_pos _ (by norm_num)
      have ha : (0 : ℚ) ≤ (tout : ℚ) := by exact_mod_cast h3
      have hb : (tin : ℚ) < 86400 := by exact_mod_cast h2
      linarith

/-- C7 witness: clock-in 22:00 (79200 s) and clock-out 06:00 (21600 s)
give exactly 8.0 hours, a positive value. -/
theorem c7_witness : shift_hrs 79200 21600 = 8 ∧ 0 < shift_hrs 79200 21600 := by
  have h := (c7_shift_hours_amended 79200 21600 (by norm_num) (by norm_num)
      (by norm_num) (by norm_num)).2.2.2 (by norm_num)
  refine ⟨?_, h⟩
  norm_num [shift_hrs]

/-- C8: when no schedule resolves the late flag is false, and for an
expected clock-in whose 5-minute grace does not cross midnight the
employee is flagged late exactly when the actual clock-in time of day is
strictly greater than the expected clock-in plus 300 seconds. -/
theorem c8_lateness_rule (t a : ℤ) (h0 : 0 ≤ t) (h1 : t + 300 < 86400) :
    late_flag none a = false ∧ late_flag (some t) a = decide (a > t + 300) := by
  refine ⟨rfl, ?_⟩
  simp only [late_flag]
  rw [Int.emod_eq_of_lt (by omega) (by omega)]

/-- C8 witness: expected 08:00 (28800 s); an actual clock-in at 08:05:00
(29100 s) is not late, 08:05:01 (29101 s) is late. -/
theorem c8_witness :
    late_flag (some 28800) 29100 = false ∧ late_flag (some 28800) 29101 = true := by
  constructor
  · rw [(c8_lateness_rule 28800 29100 (by norm_num) (by norm_num)).2]
    decide
  · rw [(c8_lateness_rule 28800 29101 (by norm_num) (by norm_num)).2]
    decide

/-- C10: for expected clock-in 23:58 (86280 s) the 5-minute grace cutoff
wraps to 00:03 (180 s), so an actual clock-in at exactly 23:58 — on time,
and within plain (non-wrapped) grace — is flagged late. -/
theorem c10_grace_wraps_past_midnight :
    late_flag (some 86280) 86280 = true ∧ ((86280 : ℤ) + 300) % 86400 = 180 ∧
      (86280 : ℤ) ≤ 86280 + 300 := by
  decide

/-- C6 counterexample: a punch whose `clock_out` timestamp precedes its
`clock_in` yields negative worked seconds (no 24h is added), and in the
monthly worked-hours sum an open punch (`clock_out` null) contributes 0
hours — `clock_in`, not "now", is the stand-in there — while the daily
computation with "now" 90000 would give 89000 seconds. -/
theorem c6_counterexample :
    secs_day 72000 (some 68400) 90000 = -3600 ∧
    ¬ (0 < secs_day 72000 (some 68400) 90000) ∧
    workedOf 0 30 7 [⟨7, 10, 1000, none⟩] = 0 ∧
    secs_day 1000 none 90000 = 89000 := by
  refine ⟨by decide, by decide, ?_, by decide⟩
  norm_num [workedOf]

/-- C6 (amended): in the daily grid and range reconciliation, worked
seconds are `COALESCE(clock_out, now) - clock_in` — `now` stands in only
while the punch is open, and the value is negative when `clock_out`
precedes `clock_in` (no 24 hours are added); the monthly worked-hours sum
instead substitutes `clock_in` for a null `clock_out`, so an open punch
contributes zero. -/
theorem c6_worked_seconds_amended (cin c now s e : ℤ) (eid : ℕ) (hse : s ≤ e) :
    secs_day cin (some c) now = c - cin
  ∧ secs_day cin none now = now - cin
  ∧ (c < cin → secs_day cin (some c) now < 0)
  ∧ workedOf s e eid [⟨eid, s, cin, none⟩] = 0 := by
  refine ⟨rfl, rfl, ?_, ?_⟩
  · intro h
    simp only [secs_day, Option.getD_some]
    omega
  · simp [workedOf, hse]

/-- C6 witness: an open punch at clock-in 1000 with "now" 90000 shows
89000 worked seconds in the daily computation but adds 0 hours to the
monthly sum. -/
theorem c6_witness :
    secs_day 1000 none 90000 = 89000 ∧ workedOf 0 30 7 [⟨7, 0, 1000, none⟩] = 0 := by
  have h := c6_worked_seconds_amended 1000 0 90000 0 30 7 (by norm_num)
  refine ⟨?_, h.2.2.2⟩
  rw [h.2.1]
  norm_num

/-- C9 counterexample: the inline adjustment form of
pages/employee_salary.py, one of the claim's two posting paths, handles
`amt = -5` by writing nothing and surfacing NO validation error (its
outcome's error channel is `none`), while the hr_salary_log form does
error — so "rejected with a validation error" is false for every
non-positive inline submission. -/
theorem c9_counterexample :
    (inline_adjust_outcome 1 15 (-5) "bonus" "x" db5).err = none ∧
    (inline_adjust_outcome 1 15 (-5) "bonus" "x" db5).db = db5 ∧
    (add_adjustment_submit 1 15 (-5) "bonus" "x" db5).err
      = some "Amount must be positive." := by
  refine ⟨rfl, ?_, by norm_num [add_adjustment_submit]⟩
  norm_num [inline_adjust_outcome]

/-- C9 (amended): posting an adjustment with amount <= 0 inserts no row,
so any later monthly summary is unchanged; the hr_salary_log form
rejects it with a validation error, while the inline employee_salary
form writes nothing but surfaces no error.  An amount > 0 appends
exactly one row to the adjustment log on either path. -/
theorem c9_adjustment_validation (eid : ℕ) (d : ℤ) (amount : ℚ)
    (typ rsn : String) (db : DB) :
    (amount ≤ 0 →
      (add_adjustment_submit eid d amount typ rsn db).db = db ∧
      (add_adjustment_submit eid d amount typ rsn db).err
        = some "Amount must be positive." ∧
      (∀ s e : ℤ, fetch_month_summary s e (add_adjustment_submit eid d amount typ rsn db).db
          = fetch_month_summary s e db) ∧
      (inline_adjust_outcome eid d amount typ rsn db).db = db ∧
      (inline_adjust_outcome eid d amount typ rsn db).err = none)
  ∧ (0 < amount →
      (add_adjustment_submit eid d amount typ rsn db).err = none ∧
      (add_adjustment_submit eid d amount typ rsn db).db.salary_log
        = db.salary_log ++ [⟨eid, d, amount, typ, rsn⟩] ∧
      (inline_adjust_outcome eid d amount typ rsn db).db.salary_log
        = db.salary_log ++ [⟨eid, d, amount, typ, rsn⟩]) := by
  constructor
  · intro h
    have hn : ¬ 0 < amount := not_lt.mpr h
    refine ⟨?_, ?_, ?_, ?_, ?_⟩ <;>
      simp [add_adjustment_submit, inline_adjust_outcome, h, hn]
  · intro h
    have hn : ¬ amount ≤ 0 := not_le.mpr h
    refine ⟨?_, ?_, ?_⟩ <;>
      simp [add_adjustment_submit, inline_adjust_outcome, add_adjustment, h, hn]

/-- C9 witness: `post_adjustment(1, 15, -5, "bonus", "x")` on the
hr_salary_log path errors and leaves the store and the month summary
unchanged; the inline path for the same input writes nothing and errors
nothing; posting 50 appends exactly one row. -/
theorem c9_witness :
    (add_adjustment_submit 1 15 (-5) "bonus" "x" db5).db = db5 ∧
    (add_adjustment_submit 1 15 (-5) "bonus" "x" db5).err
      = some "Amount must be positive." ∧
    fetch_month_summary 10 40 (add_adjustment_submit 1 15 (-5) "bonus" "x" db5).db
      = fetch_month_summary 10 40 db5 ∧
    (inline_adjust_outcome 1 15 (-5) "bonus" "x" db5).err = none ∧
    (add_adjustment_submit 1 15 50 "bonus" "Eid" db5).db.salary_log
      = db5.salary_log ++ [⟨1, 15, 50, "bonus", "Eid"⟩] := by
  have h1 := (c9_adjustment_validation 1 15 (-5) "bonus" "x" db5).1 (by norm_num)
  have h2 := (c9_adjustment_validation 1 15 50 "bonus" "Eid" db5).2 (by norm_num)
  exact ⟨h1.1, h1.2.1, h1.2.2.1 10 40, h1.2.2.2.2, h2.2.1⟩

/-- C2: the raise/cut submit writes nothing when the new salary is <= 0
or equals the current salary; otherwise, in one step, every open salary
record of the employee gets `effective_to = eff_first - 1` and a new
open-ended record at the new amount starting `eff_first` is appended,
with no other change to the store. -/
theorem c2_raise_contract (today : ℤ) (eid : ℕ) (ns : ℚ) (eff : ℤ)
    (rsn : String) (db : DB) :
    (ns ≤ 0 → tab_raise_submit today eid ns eff rsn db = db)
  ∧ (ns = current_salary today eid db.salary_history →
      tab_raise_submit today eid ns eff rsn db = db)
  ∧ (0 < ns → ns ≠ current_salary today eid db.salary_history →
      tab_raise_submit today eid ns eff rsn db =
        { db with salary_history :=
            db.salary_history.map (fun r =>
              if r.employeeid = eid ∧ r.effective_to = none then
                { r with effective_to := some (eff - 1) } else r)
            ++ [{ employeeid := eid, salary := ns, effective_from := eff,
                  effective_to := none, reason := rsn }] }) := by
  refine ⟨fun h => by simp [tab_raise_submit, h], fun h => ?_, fun h1 h2 => ?_⟩
  · by_cases h0 : ns ≤ 0
    · simp [tab_raise_submit, h0]
    · simp [tab_raise_submit, h0, h]
  · have h0 : ¬ ns ≤ 0 := not_le.mpr h1
    simp [tab_raise_submit, h0, h2, close_current_and_insert_raise]

/-- C2 witness: with current salary 100 (open since day 0), submitting -5
or 100 writes nothing; submitting 120 effective day 31 closes the open
record at day 30 and appends the new open record at 120. -/
theorem c2_witness :
    tab_raise_submit 50 1 (-5) 31 "x" db2w = db2w ∧
    tab_raise_submit 50 1 100 31 "x" db2w = db2w ∧
    (tab_raise_submit 50 1 120 31 "promo" db2w).salary_history
      = [⟨1, 100, 0, some 30, "hire"⟩, ⟨1, 120, 31, none, "promo"⟩] := by
  refine ⟨(c2_raise_contract 50 1 (-5) 31 "x" db2w).1 (by norm_num),
          (c2_raise_contract 50 1 100 31 "x" db2w).2.1 (by decide),
          ?_⟩
  rw [(c2_raise_contract 50 1 120 31 "promo" db2w).2.2 (by norm_num) (by decide)]
  decide

/-- Helper: a locked month is returned unchanged by the push tab. -/
theorem tab_push_of_locked (m e : ℤ) (req : ℚ) (actor : String) (db : DB)
    (h : already_pushed m db.pushed = true) : tab_push m e req actor db = db := by
  simp [tab_push, h]

/-- C3: finalize twice yields exactly one set of ledger rows for the
month: a call on a locked month (some `hr_salary_pushed` row exists for
it) returns the store unchanged; a call on an unlocked month appends, in
one step, one snapshot row per `fetch_month` row; and the operation is
idempotent. -/
theorem c3_finalize_lock (m e : ℤ) (req : ℚ) (actor : String) (db : DB) :
    (already_pushed m db.pushed = true → tab_push m e req actor db = db)
  ∧ (already_pushed m db.pushed = false →
      (tab_push m e req actor db).pushed = db.pushed ++ pushRows m e req actor db)
  ∧ tab_push m e req actor (tab_push m e req actor db) = tab_push m e req actor db := by
  refine ⟨fun h => tab_push_of_locked m e req actor db h,
          fun h => by simp [tab_push, h], ?_⟩
  obtain ⟨emps, slog, shist, att, ahist, pu⟩ := db
  by_cases h : already_pushed m pu = true
  · rw [tab_push_of_locked m e req actor ⟨emps, slog, shist, att, ahist, pu⟩ h]
    exact tab_push_of_locked m e req actor ⟨emps, slog, shist, att, ahist, pu⟩ h
  · have hfalse : already_pushed m pu = false := by
      cases hx : already_pushed m pu
      · rfl
      · exact absurd hx h
    cases emps with
    | nil => simp [tab_push, hfalse, pushRows, fetch_month]
    | cons emp rest =>
      have hlock : already_pushed m
          (pu ++ pushRows m e req actor ⟨emp :: rest, slog, shist, att, ahist, pu⟩)
          = true := by
        simp only [already_pushed, decide_eq_true_eq, List.countP_append]
        have hpos : 0 < List.countP (fun p => decide (p.month = m))
            (pushRows m e req actor ⟨emp :: rest, slog, shist, att, ahist, pu⟩) := by
          simp [pushRows, fetch_month, List.countP_cons, push_row]
        omega
      have hpush : tab_push m e req actor ⟨emp :: rest, slog, shist, att, ahist, pu⟩
          = ⟨emp :: rest, slog, shist, att, ahist,
             pu ++ pushRows m e req actor ⟨emp :: rest, slog, shist, att, ahist, pu⟩⟩ := by
        simp [tab_push, hfalse]
      rw [hpush]
      exact tab_push_of_locked m e req actor _ hlock

/-- C3 witness: a month already pushed is refused unchanged; an unpushed
month gets exactly the snapshot rows appended. -/
theorem c3_witness :
    tab_push 0 30 0 "hr" db3L = db3L ∧
    (tab_push 0 30 0 "hr" db3o).pushed = db3o.pushed ++ pushRows 0 30 0 "hr" db3o :=
  ⟨(c3_finalize_lock 0 30 0 "hr" db3L).1 (by decide),
   (c3_finalize_lock 0 30 0 "hr" db3o).2.1 (by decide)⟩

/-- C5: in every `fetch_month` row, every `fetch_month_summary` row, and
every ledger row written by finalize, `net = base + bonus + extra - fine`
exactly, with bonus/extra/fine the sums of the month's adjustments of
each type (0 when none). -/
theorem c5_net_identity (s e : ℤ) (req : ℚ) (db : DB) :
    (∀ r ∈ fetch_month s e req db,
      r.net = r.base + r.bonus + r.extra - r.fine ∧
      r.bonus = adjSum "bonus" s e r.employeeid db.salary_log ∧
      r.extra = adjSum "extra" s e r.employeeid db.salary_log ∧
      r.fine = adjSum "fine" s e r.employeeid db.salary_log)
  ∧ (∀ r ∈ fetch_month_summary s e db,
      r.net = r.base + r.bonus + r.extra - r.fine ∧
      r.bonus = adjSum "bonus" s e r.employeeid db.salary_log ∧
      r.extra = adjSum "extra" s e r.employeeid db.salary_log ∧
      r.fine = adjSum "fine" s e r.employeeid db.salary_log)
  ∧ (∀ (m : ℤ) (actor : String) (p : PushedRow),
      p ∈ (tab_push m e req actor db).pushed →
      p ∈ db.pushed ∨
        (p.net = p.base + p.bonus + p.extra - p.fine ∧
         p.bonus = adjSum "bonus" m e p.employeeid db.salary_log ∧
         p.extra = adjSum "extra" m e p.employeeid db.salary_log ∧
         p.fine = adjSum "fine" m e p.employeeid db.salary_log)) := by
  refine ⟨?_, ?_, ?_⟩
  · intro r hr
    rw [fetch_month] at hr
    obtain ⟨emp, hemp, rfl⟩ := List.mem_map.mp hr
    exact ⟨rfl, rfl, rfl, rfl⟩
  · intro r hr
    rw [fetch_month_summary] at hr
    obtain ⟨emp, hemp, rfl⟩ := List.mem_map.mp hr
    exact ⟨by ring_nf, rfl, rfl, rfl⟩
  · intro m actor p hp
    by_cases h : already_pushed m db.pushed = true
    · rw [tab_push_of_locked m e req actor db h] at hp
      exact Or.inl hp
    · have hfalse : already_pushed m db.pushed = false := by
        cases hx : already_pushed m db.pushed
        · rfl
        · exact absurd hx h
      have hpush : (tab_push m e req actor db).pushed
          = db.pushed ++ pushRows m e req actor db := by
        simp [tab_push, hfalse]
      rw [hpush] at hp
      rcases List.mem_append.mp hp with hl | hr
      · exact Or.inl hl
      · right
        rw [pushRows] at hr
        obtain ⟨r, hr2, rfl⟩ := List.mem_map.mp hr
        rw [fetch_month] at hr2
        obtain ⟨emp, hemp, rfl⟩ := List.mem_map.mp hr2
        exact ⟨rfl, rfl, rfl, rfl⟩

/-- C5 witness: in the month with a single 50 bonus on a 200 base, the
summary row has `net = 200 + 50 + 0 - 0 = 250` and bonus is the month's
bonus sum. -/
theorem c5_witness :
    row5.net = row5.base + row5.bonus + row5.extra - row5.fine ∧
    row5.bonus = adjSum "bonus" 10 40 row5.employeeid db5.salary_log := by
  have h := (c5_net_identity 10 40 0 db5).1 row5 (List.mem_cons_self row5 [])
  exact ⟨h.1, h.2.1⟩

/-- Helper: `pickLatest` returns `none` only on the empty list. -/
theorem pickLatest_eq_none (l : List SalaryHistoryRow)
    (h : pickLatest l = none) : l = [] := by
  cases l with
  | nil => rfl
  | cons r rs =>
    exfalso
    cases hp : pickLatest rs with
    | none =>
      simp only [pickLatest, hp] at h
      exact Option.noConfusion h
    | some b =>
      simp only [pickLatest, hp] at h
      by_cases hb : b.effective_from > r.effective_from
      · rw [if_pos hb] at h; exact Option.noConfusion h
      · rw [if_neg hb] at h; exact Option.noConfusion h

/-- Helper: the row `pickLatest` returns belongs to the list. -/
theorem pickLatest_mem (l : List SalaryHistoryRow) (r : SalaryHistoryRow)
    (h : pickLatest l = some r) : r ∈ l := by
  induction l generalizing r with
  | nil => exact Option.noConfusion h
  | cons x xs ih =>
    cases hp : pickLatest xs with
    | none =>
      simp only [pickLatest, hp] at h
      have hr := Option.some.inj h
      subst hr
      exact List.mem_cons_self _ _
    | some b =>
      simp only [pickLatest, hp] at h
      by_cases hb : b.effective_from > x.effective_from
      · rw [if_pos hb] at h
        have hr := Option.some.inj h
        subst hr
        exact List.mem_cons_of_mem _ (ih _ hp)
      · rw [if_neg hb] at h
        have hr := Option.some.inj h
        subst hr
        exact List.mem_cons_self _ _

/-- Helper: the row `pickLatest` returns has the maximal
`effective_from` of the list. -/
theorem pickLatest_max (l : List SalaryHistoryRow) (r : SalaryHistoryRow)
    (h : pickLatest l = some r) :
    ∀ x ∈ l, x.effective_from ≤ r.effective_from := by
  induction l generalizing r with
  | nil => exact Option.noConfusion h
  | cons x xs ih =>
    intro y hy
    cases hp : pickLatest xs with
    | none =>
      simp only [pickLatest, hp] at h
      have hr := Option.some.inj h
      subst hr
      have hnil := pickLatest_eq_none xs hp
      rcases List.mem_cons.mp hy with h1 | h2
      · rw [h1]
      · rw [hnil] at h2
        exact absurd h2 (List.not_mem_nil _)
    | some b =>
      simp only [pickLatest, hp] at h
      by_cases hb : b.effective_from > x.effective_from
      · rw [if_pos hb] at h
        have hr := Option.some.inj h
        subst hr
        rcases List.mem_cons.mp hy with h1 | h2
        · rw [h1]; exact le_of_lt hb
        · exact ih _ hp _ h2
      · rw [if_neg hb] at h
        have hr := Option.some.inj h
        subst hr
        rcases List.mem_cons.mp hy with h1 | h2
        · rw [h1]
        · exact le_trans (ih _ hp _ h2) (not_lt.mp hb)

/-- C4 (amended): in `fetch_month` (pages/employee_salary.py) the base of
every row is the salary of the employee's history record whose window
contains the month's first day — the one with the greatest
`effective_from` among matches — and 0 when none matches.  (The claim's
"every monthly-summary computation" part fails: see the counterexample,
`fetch_month_summary` uses the static `basicsalary` column instead.) -/
theorem c4_base_resolution (s e : ℤ) (req : ℚ) (db : DB) (row : MonthRow)
    (hrow : row ∈ fetch_month s e req db) :
    (∃ h ∈ db.salary_history, matchesAt s row.employeeid h = true ∧
        row.base = h.salary ∧
        ∀ h2 ∈ db.salary_history, matchesAt s row.employeeid h2 = true →
          h2.effective_from ≤ h.effective_from)
  ∨ ((∀ h ∈ db.salary_history, matchesAt s row.employeeid h = false) ∧
      row.base = 0) := by
  rw [fetch_month] at hrow
  obtain ⟨emp, hemp, rfl⟩ := List.mem_map.mp hrow
  cases hp : pickLatest (db.salary_history.filter
      (fun r => matchesAt s emp.employeeid r)) with
  | none =>
    right
    have hnil := pickLatest_eq_none _ hp
    constructor
    · intro h hh
      cases hmt : matchesAt s emp.employeeid h with
      | false => exact hmt
      | true =>
        exfalso
        have hmem : h ∈ db.salary_history.filter
            (fun r => matchesAt s emp.employeeid r) :=
          List.mem_filter.mpr ⟨hh, hmt⟩
        rw [hnil] at hmem
        exact absurd hmem (List.not_mem_nil _)
    · show resolveSalaryAt s emp.employeeid db.salary_history = 0
      rw [resolveSalaryAt, hp]
  | some b =>
    left
    have hbmem := pickLatest_mem _ _ hp
    have hbf := List.mem_filter.mp hbmem
    refine ⟨b, hbf.1, hbf.2, ?_, ?_⟩
    · show resolveSalaryAt s emp.employeeid db.salary_history = b.salary
      rw [resolveSalaryAt, hp]
    · intro h2 hh2 hm2
      exact pickLatest_max _ _ hp h2 (List.mem_filter.mpr ⟨hh2, hm2⟩)

/-- C4 counterexample: with static `basicsalary` 100 but a salary-history
record of 200 in force on the month's first day, the
`fetch_month_summary` page reports base 100 while the record containing
the first day has salary 200 — so not every exposed monthly-summary
computation resolves base from the salary history. -/
theorem c4_counterexample :
    (fetch_month_summary 10 40 db4c).map (fun r => r.base) = [100] ∧
    resolveSalaryAt 10 1 db4c.salary_history = 200 ∧
    matchesAt 10 1 ⟨1, 200, 0, none, "hire"⟩ = true ∧
    (100 : ℚ) ≠ 200 := by
  decide

/-- C4 witness: the `fetch_month` row of `db4c` resolves base 200 from
the history record in force on day 10. -/
theorem c4_witness :
    (∃ h ∈ db4c.salary_history, matchesAt 10 row4.employeeid h = true ∧
        row4.base = h.salary ∧
        ∀ h2 ∈ db4c.salary_history, matchesAt 10 row4.employeeid h2 = true →
          h2.effective_from ≤ h.effective_from)
  ∨ ((∀ h ∈ db4c.salary_history, matchesAt 10 row4.employeeid h = false) ∧
      row4.base = 0) :=
  c4_base_resolution 10 40 0 db4c row4 (List.mem_cons_self row4 [])

/-- Helper: closing open windows cannot create an overlap between two
windows that did not already overlap. -/
theorem closeOne_overlap_mono (cf : ℤ) (w v : Window)
    (h : winOverlap (closeOne cf w) (closeOne cf v) = true) :
    winOverlap w v = true := by
  rcases w with ⟨f1, to1⟩
  rcases v with ⟨f2, to2⟩
  cases to1 <;> cases to2 <;>
    simp [closeOne, winOverlap] at h ⊢ <;> omega

/-- Helper: a window closed at `cf - 1` (or already closed before `eff`)
does not overlap the new open window starting at `eff`. -/
theorem closeOne_no_overlap_new (cf eff : ℤ) (w : Window) (hcf : cf ≤ eff)
    (hend : ∀ t, w.2 = some t → t < eff) :
    winOverlap (closeOne cf w) (eff, none) = false := by
  rcases w with ⟨f, wto⟩
  cases wto with
  | none =>
    simp [closeOne, winOverlap]
    omega
  | some t =>
    have ht := hend t rfl
    simp [closeOne, winOverlap]
    omega

/-- Helper: pairwise non-overlap survives the close step. -/
theorem noOverlap_map_closeOne (cf : ℤ) (ws : List Window)
    (h : noOverlap ws = true) : noOverlap (ws.map (closeOne cf)) = true := by
  induction ws with
  | nil => rfl
  | cons w ws ih =>
    simp only [noOverlap, Bool.and_eq_true, List.all_eq_true] at h
    simp only [List.map_cons, noOverlap, Bool.and_eq_true, List.all_eq_true]
    refine ⟨?_, ih h.2⟩
    intro v hv
    obtain ⟨u, hu, rfl⟩ := List.mem_map.mp hv
    have hw := h.1 u hu
    cases hc : winOverlap (closeOne cf w) (closeOne cf u) with
    | false => rfl
    | true =>
      exfalso
      have hm := closeOne_overlap_mono cf w u hc
      rw [hm] at hw
      exact Bool.noConfusion hw

/-- Helper: the close step leaves no open window. -/
theorem openCount_map_closeOne (cf : ℤ) (ws : List Window) :
    openCount (ws.map (closeOne cf)) = 0 := by
  induction ws with
  | nil => rfl
  | cons w ws ih =>
    rcases w with ⟨f, wto⟩
    cases wto with
    | none => simpa [openCount, closeOne, List.countP_cons] using ih
    | some t => simpa [openCount, closeOne, List.countP_cons] using ih

/-- Helper: appending one window that overlaps nothing preserves pairwise
non-overlap. -/
theorem noOverlap_append_one (l : List Window) (x : Window)
    (hl : noOverlap l = true) (hx : ∀ w ∈ l, winOverlap w x = false) :
    noOverlap (l ++ [x]) = true := by
  induction l with
  | nil => simp [noOverlap]
  | cons w l ih =>
    simp only [noOverlap, Bool.and_eq_true, List.all_eq_true] at hl
    simp only [List.cons_append, noOverlap, Bool.and_eq_true, List.all_eq_true]
    constructor
    · intro v hv
      rcases List.mem_append.mp hv with h1 | h2
      · exact hl.1 v h1
      · rw [List.mem_singleton.mp h2]
        have hwx := hx w (List.mem_cons_self _ _)
        simp [hwx]
    · exact ih hl.2 (fun u hu => hx u (List.mem_cons_of_mem _ hu))

/-- Helper: the window-level close+insert preserves the timeline
invariant when the new record starts after every already-closed window
ends (`cf` is the close date, `eff` the new record's start, `cf <= eff`). -/
theorem closeInsertWins_ok (cf eff : ℤ) (ws : List Window)
    (hok : timelineOK ws = true) (hcf : cf ≤ eff)
    (hend : ∀ w ∈ ws, ∀ t, w.2 = some t → t < eff) :
    timelineOK (closeInsertWins cf eff ws) = true := by
  simp only [timelineOK, Bool.and_eq_true, decide_eq_true_eq] at hok
  simp only [timelineOK, closeInsertWins, Bool.and_eq_true, decide_eq_true_eq]
  constructor
  · apply noOverlap_append_one
    · exact noOverlap_map_closeOne cf ws hok.1
    · intro w hw
      obtain ⟨u, hu, rfl⟩ := List.mem_map.mp hw
      exact closeOne_no_overlap_new cf eff u hcf (hend u hu)
  · have h1 : openCount (ws.map (closeOne cf) ++ [((eff : ℤ), (none : Option ℤ))])
        = openCount (ws.map (closeOne cf)) + openCount [((eff : ℤ), (none : Option ℤ))] :=
      List.countP_append _ _ _
    rw [h1, openCount_map_closeOne]
    rfl

/-- Helper: one filter step of the per-employee salary windows. -/
theorem salWins_cons (eid : ℕ) (x : SalaryHistoryRow) (L : List SalaryHistoryRow) :
    salWins eid (x :: L) = if x.employeeid = eid then
      (x.effective_from, x.effective_to) :: salWins eid L else salWins eid L := by
  by_cases h : x.employeeid = eid
  · simp [salWins, List.filter_cons, h]
  · simp [salWins, List.filter_cons, h]

/-- Helper: one filter step of the per-employee schedule windows. -/
theorem schedWins_cons (eid : ℕ) (x : SchedRow) (L : List SchedRow) :
    schedWins eid (x :: L) = if x.employeeid = eid then
      (x.effective_from, x.effective_to) :: schedWins eid L else schedWins eid L := by
  by_cases h : x.employeeid = eid
  · simp [schedWins, List.filter_cons, h]
  · simp [schedWins, List.filter_cons, h]

/-- Helper: one cons step of the window-level close+insert. -/
theorem closeInsertWins_cons (cf eff : ℤ) (w : Window) (ws : List Window) :
    closeInsertWins cf eff (w :: ws) = closeOne cf w :: closeInsertWins cf eff ws := rfl

/-- Helper: a salary raise/cut acts on the employee's windows exactly as
the window-level close+insert with `cf = eff`. -/
theorem salWins_close_insert (eid : ℕ) (sal : ℚ) (eff : ℤ) (rsn : String)
    (tbl : List SalaryHistoryRow) :
    salWins eid (close_current_and_insert_raise eid sal eff rsn tbl)
      = closeInsertWins eff eff (salWins eid tbl) := by
  induction tbl with
  | nil => simp [salWins, close_current_and_insert_raise, closeInsertWins]
  | cons r tbl ih =>
    show salWins eid ((if r.employeeid = eid ∧ r.effective_to = none then
        { r with effective_to := some (eff - 1) } else r) ::
        close_current_and_insert_raise eid sal eff rsn tbl)
      = closeInsertWins eff eff (salWins eid (r :: tbl))
    by_cases h1 : r.employeeid = eid
    · by_cases h2 : r.effective_to = none
      · rw [if_pos ⟨h1, h2⟩]
        simp [salWins_cons, closeInsertWins_cons, h1, h2, ih, closeOne]
      · rw [if_neg (fun hc => h2 hc.2)]
        obtain ⟨t, ht⟩ := Option.ne_none_iff_exists'.mp h2
        simp [salWins_cons, closeInsertWins_cons, h1, ht, ih, closeOne]
    · rw [if_neg (fun hc => h1 hc.1)]
      simp [salWins_cons, h1, ih]

/-- Helper: a salary raise/cut of one employee leaves every other
employee's windows unchanged. -/
theorem salWins_close_insert_other (eid1 eid : ℕ) (sal : ℚ) (eff : ℤ)
    (rsn : String) (tbl : List SalaryHistoryRow) (hne : eid1 ≠ eid) :
    salWins eid (close_current_and_insert_raise eid1 sal eff rsn tbl)
      = salWins eid tbl := by
  induction tbl with
  | nil => simp [salWins, close_current_and_insert_raise, hne]
  | cons r tbl ih =>
    show salWins eid ((if r.employeeid = eid1 ∧ r.effective_to = none then
        { r with effective_to := some (eff - 1) } else r) ::
        close_current_and_insert_raise eid1 sal eff rsn tbl)
      = salWins eid (r :: tbl)
    by_cases h1 : r.employeeid = eid1 ∧ r.effective_to = none
    · rw [if_pos h1]
      have hne2 : r.employeeid ≠ eid := by
        rw [h1.1]; exact hne
      simp [salWins_cons, hne2, ih]
    · rw [if_neg h1]
      by_cases h2 : r.employeeid = eid
      · simp [salWins_cons, h2, ih]
      · simp [salWins_cons, h2, ih]

/-- Helper: a schedule supersede acts on the employee's windows exactly
as the window-level close+insert with close date `payload.effective_from`
and insert date `payload.eff`. -/
theorem schedWins_close_add (eid : ℕ) (pl : SchedPayload) (newId : ℕ)
    (tbl : List SchedRow) :
    schedWins eid (close_current_and_add eid pl newId tbl)
      = closeInsertWins pl.effective_from pl.eff (schedWins eid tbl) := by
  induction tbl with
  | nil => simp [schedWins, close_current_and_add, closeInsertWins]
  | cons r tbl ih =>
    show schedWins eid ((if r.employeeid = eid ∧ r.effective_to = none then
        { r with effective_to := some (pl.effective_from - 1) } else r) ::
        close_current_and_add eid pl newId tbl)
      = closeInsertWins pl.effective_from pl.eff (schedWins eid (r :: tbl))
    by_cases h1 : r.employeeid = eid
    · by_cases h2 : r.effective_to = none
      · rw [if_pos ⟨h1, h2⟩]
        simp [schedWins_cons, closeInsertWins_cons, h1, h2, ih, closeOne]
      · rw [if_neg (fun hc => h2 hc.2)]
        obtain ⟨t, ht⟩ := Option.ne_none_iff_exists'.mp h2
        simp [schedWins_cons, closeInsertWins_cons, h1, ht, ih, closeOne]
    · rw [if_neg (fun hc => h1 hc.1)]
      simp [schedWins_cons, h1, ih]

/-- Helper: a schedule supersede of one employee leaves every other
employee's windows unchanged. -/
theorem schedWins_close_add_other (eid1 eid : ℕ) (pl : SchedPayload)
    (newId : ℕ) (tbl : List SchedRow) (hne : eid1 ≠ eid) :
    schedWins eid (close_current_and_add eid1 pl newId tbl)
      = schedWins eid tbl := by
  induction tbl with
  | nil => simp [schedWins, close_current_and_add, hne]
  | cons r tbl ih =>
    show schedWins eid ((if r.employeeid = eid1 ∧ r.effective_to = none then
        { r with effective_to := some (pl.effective_from - 1) } else r) ::
        close_current_and_add eid1 pl newId tbl)
      = schedWins eid (r :: tbl)
    by_cases h1 : r.employeeid = eid1 ∧ r.effective_to = none
    · rw [if_pos h1]
      have hne2 : r.employeeid ≠ eid := by
        rw [h1.1]; exact hne
      simp [schedWins_cons, hne2, ih]
    · rw [if_neg h1]
      by_cases h2 : r.employeeid = eid
      · simp [schedWins_cons, h2, ih]
      · simp [schedWins_cons, h2, ih]

/-- Helper: the freshness check bounds every closed salary window of the
employee. -/
theorem salWins_ends (eid : ℕ) (eff : ℤ) (tbl : List SalaryHistoryRow)
    (h : tbl.all (fun r => !(decide (r.employeeid = eid)) ||
        endsBefore eff r.effective_to) = true) :
    ∀ w ∈ salWins eid tbl, ∀ t, w.2 = some t → t < eff := by
  intro w hw t hwt
  rw [salWins] at hw
  obtain ⟨r, hr, rfl⟩ := List.mem_map.mp hw
  have hrf := List.mem_filter.mp hr
  have hall := List.all_eq_true.mp h r hrf.1
  rw [Bool.or_eq_true] at hall
  rcases hall with h1 | h2
  · exfalso
    have hd : decide (r.employeeid = eid) = true := hrf.2
    rw [hd] at h1
    exact Bool.noConfusion h1
  · have hwt2 : r.effective_to = some t := hwt
    rw [hwt2] at h2
    simpa [endsBefore] using h2

/-- Helper: the freshness check bounds every closed schedule window of
the employee. -/
theorem schedWins_ends (eid : ℕ) (eff : ℤ) (tbl : List SchedRow)
    (h : tbl.all (fun r => !(decide (r.employeeid = eid)) ||
        endsBefore eff r.effective_to) = true) :
    ∀ w ∈ schedWins eid tbl, ∀ t, w.2 = some t → t < eff := by
  intro w hw t hwt
  rw [schedWins] at hw
  obtain ⟨r, hr, rfl⟩ := List.mem_map.mp hw
  have hrf := List.mem_filter.mp hr
  have hall := List.all_eq_true.mp h r hrf.1
  rw [Bool.or_eq_true] at hall
  rcases hall with h1 | h2
  · exfalso
    have hd : decide (r.employeeid = eid) = true := hrf.2
    rw [hd] at h1
    exact Bool.noConfusion h1
  · have hwt2 : r.effective_to = some t := hwt
    rw [hwt2] at h2
    simpa [endsBefore] using h2

/-- Helper: one fresh close+insert operation preserves the per-employee
timeline invariant. -/
theorem applyHistOp_ok (eid : ℕ) (op : HistOp) (db : DB)
    (hf : opFresh op db = true) (h : empTimelinesOK eid db = true) :
    empTimelinesOK eid (applyHistOp op db) = true := by
  rcases op with ⟨eid1, sal, eff, rsn⟩ | ⟨eid1, pl, newId⟩
  · simp only [empTimelinesOK, Bool.and_eq_true] at h
    simp only [applyHistOp, empTimelinesOK, Bool.and_eq_true]
    refine ⟨?_, h.2⟩
    by_cases he : eid1 = eid
    · subst he
      rw [salWins_close_insert]
      exact closeInsertWins_ok eff eff _ h.1 le_rfl (salWins_ends eid1 eff _ hf)
    · rw [salWins_close_insert_other eid1 eid sal eff rsn db.salary_history he]
      exact h.1
  · simp only [empTimelinesOK, Bool.and_eq_true] at h
    simp only [applyHistOp, empTimelinesOK, Bool.and_eq_true]
    refine ⟨h.1, ?_⟩
    simp only [opFresh, Bool.and_eq_true, decide_eq_true_eq] at hf
    by_cases he : eid1 = eid
    · subst he
      rw [schedWins_close_add]
      exact closeInsertWins_ok pl.effective_from pl.eff _ h.2 hf.1
        (schedWins_ends eid1 pl.eff _ hf.2)
    · rw [schedWins_close_add_other eid1 eid pl newId db.attendance_history he]
      exact h.2

/-- C1 (amended): for every employee, any sequence of the close+insert
operations (`close_current_and_add` schedule supersedes and
`close_current_and_insert_raise` raises/cuts) starting from a state whose
timelines satisfy the invariant preserves it — no two of the employee's
records have overlapping windows and at most one is open — provided each
operation is fresh: its new `effective_from` is strictly later than the
`effective_to` of every already-closed record of that employee (and a
schedule payload's close date does not exceed its insert date).  The
claim as stated is false: `update_schedule_row` edits break the
invariant, and a back-dated close+insert creates an overlap (see the
counterexample). -/
theorem c1_timeline_invariant (ops : List HistOp) (eid : ℕ) (db : DB)
    (hf : freshSeq ops db = true) (hinv : empTimelinesOK eid db = true) :
    empTimelinesOK eid (applyHistOps ops db) = true := by
  induction ops generalizing db with
  | nil => exact hinv
  | cons op ops ih =>
    simp only [freshSeq, Bool.and_eq_true] at hf
    exact ih (applyHistOp op db) hf.2 (applyHistOp_ok eid op db hf.1 hinv)

/-- C1 counterexample: from a valid two-record schedule timeline (built
by two supersedes), a single `update_schedule_row` edit reopens the old
record, leaving two open records whose windows share day 150; and from a
valid salary timeline, a back-dated `close_current_and_insert_raise`
(effective day 50, after records closed through day 199 exist) leaves two
records whose windows share day 100 — so the claim is false for
arbitrary close+insert/edit sequences. -/
theorem c1_counterexample :
    timelineOK (schedWins 1 tlB) = true ∧
    schedWins 1 tlC = [(0, none), (100, none)] ∧
    openCount (schedWins 1 tlC) = 2 ∧
    winContains (0, none) 150 = true ∧ winContains (100, none) 150 = true ∧
    timelineOK (schedWins 1 tlC) = false ∧
    timelineOK (salWins 1 sB) = true ∧
    salWins 1 sC = [(0, some 199), (200, some 49), (50, none)] ∧
    winContains (0, some 199) 100 = true ∧ winContains (50, none) 100 = true ∧
    timelineOK (salWins 1 sC) = false := by
  decide

/-- C1 witness: a fresh sequence — hire raise at day 0, raise at day 31,
schedule supersede at day 40 — applied to the empty store keeps employee
1's timelines invariant. -/
theorem c1_witness :
    freshSeq ops0 emptyDB = true ∧ empTimelinesOK 1 emptyDB = true ∧
    empTimelinesOK 1 (applyHistOps ops0 emptyDB) = true :=
  ⟨by decide, by decide, c1_timeline_invariant ops0 1 emptyDB (by decide) (by decide)⟩

end HRAmas
